import Mathlib

/-!
Verification development for the PAI-OS-Agent Observation & Control Engine.

This file gives a shallow embedding, in Lean 4, of the pure decision logic of
the repository:

* `src/core.py` — `observe_os_state` (element building, the VM/OCR heuristic,
  the OCR merge), `_filter_nested_elements`, `execute_os_action` (the command
  dispatcher), `_trigger_ipc_analysis`, `check_ipc_handle_exists`;
* `src/agent.py` — the window/focus state machine of `OSAgent`
  (`_update_focus_stack`, the popup auto-detection and stale-handle recovery
  of `_run_executor_sprint`, the dispatcher bookkeeping, and the focus
  resolution of `_capture_state`).

Side-effecting calls (the screen grab, EasyOCR, pyautogui, subprocess, the
IPC socket) are modelled by passing their observable outcomes in as data
(lists of raw elements, OCR boxes, window lists, transport outcomes) and by
recording the low-level calls a dispatch would issue as an explicit effect
list.  Machine integers are modelled as `Int`/`Nat`; Python float divisions
by 2 that are only compared against integers are modelled exactly
(`a / 2 ≥ m  ↔  a ≥ 2*m`), and Python `//` is `Int.fdiv`.
-/

/-- Python `pat in s` on lists of characters: `listStarts l pat` is
`l` starting with `pat`. -/
def listStarts : List Char → List Char → Bool
  | _, [] => true
  | [], _ :: _ => false
  | c :: cs, p :: ps => c == p && listStarts cs ps

/-- Helper for substring search over character lists. -/
def listHas (pat : List Char) : List Char → Bool
  | [] => pat.isEmpty
  | c :: cs => listStarts (c :: cs) pat || listHas pat cs

/-- Python `pat in s` (substring containment). -/
def strHas (s pat : String) : Bool := listHas pat.toList s.toList

/-- Python `s.startswith(pat)`. -/
def strStarts (s pat : String) : Bool := listStarts s.toList pat.toList

/-- Python `s.endswith(pat)`. -/
def strEnds (s pat : String) : Bool := listStarts s.toList.reverse pat.toList.reverse

/-- Python `str.lower()` (the titles handled here are ASCII). -/
def pyLower (s : String) : String := String.mk (s.toList.map Char.toLower)

/-- ASCII whitespace test used by `pyStrip`. -/
def isSpaceChar (c : Char) : Bool := c == ' ' || c == '\t' || c == '\n' || c == '\r'

/-- Python `str.strip()` (ASCII whitespace). -/
def pyStrip (s : String) : String :=
  String.mk (((s.toList.dropWhile isSpaceChar).reverse.dropWhile isSpaceChar).reverse)

/-- Python truthiness of an optional window handle (`if handle:`): `None`
and `0` are falsy. -/
def truthyHandle : Option Nat → Bool
  | none => false
  | some h => h != 0

/-- Python truthiness of an optional string (`if name:`): `None` and `""`
are falsy. -/
def truthyStr : Option String → Bool
  | none => false
  | some s => s != ""

/-- A window/element rectangle `(left, top, right, bottom)` in absolute
screen coordinates. -/
structure Rect where
  left : Int
  top : Int
  right : Int
  bottom : Int
deriving DecidableEq, Repr

/-- One entry of a `get_window_list` reply from the Automation Server. -/
structure WindowRec where
  handle : Nat
  title : String
  rect : Rect
deriving DecidableEq, Repr

/-- One raw element of an `analyze` reply from the Automation Server, as
consumed by `observe_os_state` (dict keys `name`, `type`, `control_type`,
`automation_id`, `rectangle_coords`, `top_level_handle`; absent string keys
are modelled by `""`). -/
structure RawElement where
  name : String
  type : String
  control_type : String
  automation_id : Option String
  rectangle_coords : Rect
  top_level_handle : Option Nat
deriving DecidableEq, Repr

/-- A fused UI element of a snapshot (`detected_elements` entries of
`observe_os_state`, OCR entries of `perform_ocr_scan`).  The Selenium-only
`rect` key can also appear on elements fed to `_filter_nested_elements`.
The TEXT-only `confidence` float is not consumed by any logic modelled here
and is omitted. -/
structure UIElement where
  id : Nat
  name : String
  type : String
  automation_id : Option String
  absolute_rectangle : Option Rect
  rect : Option Rect
  top_level_handle : Option Nat
deriving DecidableEq, Repr

/-- Monitor geometry as returned by `mss` (`left`, `top`, `width`,
`height`). -/
structure Monitor where
  left : Int
  top : Int
  width : Int
  height : Int
deriving DecidableEq, Repr

/-- Monitor rectangle `(left, top, left+width, top+height)` built by
`observe_os_state`. -/
def monitorRect (m : Monitor) : Rect :=
  ⟨m.left, m.top, m.left + m.width, m.top + m.height⟩

/-- `_is_rect_on_monitor` of `core.py`: the window center (a Python float
`(l+r)/2`) lies in the half-open monitor range.  The float comparison is
modelled exactly by multiplying through by 2. -/
def _is_rect_on_monitor (window_rect monitor_rect : Rect) : Bool :=
  decide (2 * monitor_rect.left ≤ window_rect.left + window_rect.right) &&
  decide (window_rect.left + window_rect.right < 2 * monitor_rect.right) &&
  decide (2 * monitor_rect.top ≤ window_rect.top + window_rect.bottom) &&
  decide (window_rect.top + window_rect.bottom < 2 * monitor_rect.bottom)

/-- The `el_type` fallback of `observe_os_state`: `type`, else
`control_type`. -/
def rawElType (d : RawElement) : String :=
  if d.type == "" then d.control_type else d.type

/-- The element-building loop of `observe_os_state`: off-monitor raw
elements are skipped in full-desktop mode, the rest are appended with
`id = len(detected_elements)`. -/
def buildDetectedAux (focus_handle : Option Nat) (monitor_rect : Rect) :
    List RawElement → List UIElement → List UIElement
  | [], acc => acc
  | el_data :: rest, acc =>
    if !truthyHandle focus_handle && !_is_rect_on_monitor el_data.rectangle_coords monitor_rect then
      buildDetectedAux focus_handle monitor_rect rest acc
    else
      buildDetectedAux focus_handle monitor_rect rest
        (acc ++ [⟨acc.length, el_data.name, rawElType el_data, el_data.automation_id,
                 some el_data.rectangle_coords, none, el_data.top_level_handle⟩])

/-- `detected_elements` as built by `observe_os_state` before the OCR
merge. -/
def buildDetected (raw : List RawElement) (focus_handle : Option Nat) (monitor : Monitor) :
    List UIElement :=
  buildDetectedAux focus_handle (monitorRect monitor) raw []

/-- The interaction-bearing tags (`blocker_types` of `observe_os_state`). -/
def blocker_types : List String :=
  ["Button", "Edit", "CheckBox", "RadioButton", "ComboBox",
   "List", "ListItem", "MenuItem", "TabItem", "Hyperlink",
   "TreeItem", "DataItem", "HeaderItem", "Document", "Text", "TitleBar"]

/-- `total_uia_count`: retained elements whose type contains neither
`"Window"` nor `"Pane"` (computed in the same loop in the source; here read
off the retained elements, which store the same `el_type` and rectangle). -/
def uiaCount (detected : List UIElement) : Nat :=
  (detected.filter (fun e => !strHas e.type "Window" && !strHas e.type "Pane")).length

/-- `uia_blockers`: rectangles of retained elements whose type contains one
of the interaction-bearing tags. -/
def uiaBlockers (detected : List UIElement) : List Rect :=
  (detected.filter (fun e => blocker_types.any (fun t => strHas e.type t))).filterMap
    (·.absolute_rectangle)

/-- The VM-title heuristic of `observe_os_state`, evaluated on the name of
the first raw element (the owning top-level window): `"oracle"` or
`"virtualbox"` as substrings force OCR; `"vm"` only as a whole word. -/
def vmForceOCR (raw : List RawElement) : Bool :=
  match raw with
  | [] => false
  | e :: _ =>
    let root_name := pyLower e.name
    if strHas root_name "oracle" || strHas root_name "virtualbox" then true
    else if strHas root_name "vm" then
      strHas root_name " vm " || strStarts root_name "vm " ||
      strEnds root_name " vm" || root_name == "vm"
    else false

/-- `run_ocr` of `observe_os_state`: forced by the VM heuristic, else
density below 5. -/
def runOCRDecision (raw : List RawElement) (focus_handle : Option Nat) (monitor : Monitor) :
    Bool :=
  vmForceOCR raw || decide (uiaCount (buildDetected raw focus_handle monitor) < 5)

/-- `ocr_start_id` of `observe_os_state`: `9000`, raised to
`last id + 100` when that is larger. -/
def ocrStartId (detected : List UIElement) : Nat :=
  match detected.getLast? with
  | none => 9000
  | some e => max 9000 (e.id + 100)

/-- One text box detected by the OCR reader, after the `int(...)` coordinate
conversion of `perform_ocr_scan` (local coordinates of the scanned image). -/
structure OcrBox where
  x1 : Int
  y1 : Int
  x2 : Int
  y2 : Int
  text : String
deriving DecidableEq, Repr

/-- The element-building loop of `perform_ocr_scan`: local coordinates are
shifted by the global offset and ids are `start_id + len(ocr_elements)`. -/
def perform_ocr_scanAux (gx gy : Int) (start_id : Nat) :
    List OcrBox → List UIElement → List UIElement
  | [], acc => acc
  | b :: rest, acc =>
    perform_ocr_scanAux gx gy start_id rest
      (acc ++ [⟨start_id + acc.length, b.text, "OCR_TEXT", none,
               some ⟨gx + b.x1, gy + b.y1, gx + b.x2, gy + b.y2⟩, none, none⟩])

/-- `perform_ocr_scan` of `core.py`, with the reader output passed in as
data (an unavailable reader or a reader exception is the empty list). -/
def perform_ocr_scan (boxes : List OcrBox) (gx gy : Int) (start_id : Nat) : List UIElement :=
  perform_ocr_scanAux gx gy start_id boxes []

/-- The OCR-suppression test of the merge loop of `observe_os_state`: the
center (Python `//` is `Int.fdiv`) of the OCR rectangle lies inside some
blocker rectangle, borders inclusive. -/
def centerCovered (blockers : List Rect) (r : Rect) : Bool :=
  let cx := (r.left + r.right).fdiv 2
  let cy := (r.top + r.bottom).fdiv 2
  blockers.any (fun u =>
    decide (u.left ≤ cx) && decide (cx ≤ u.right) &&
    decide (u.top ≤ cy) && decide (cy ≤ u.bottom))

/-- The merged element list returned by `observe_os_state`, with the
structural `analyze` reply and the OCR reader output passed in as data.
When OCR runs, an OCR element is kept unless the VM heuristic is off and
its center is covered by a blocker. -/
def observe_os_state (raw : List RawElement) (ocr_boxes : List OcrBox)
    (focus_handle : Option Nat) (monitor : Monitor) : List UIElement :=
  let detected := buildDetected raw focus_handle monitor
  let force_ocr_vm := vmForceOCR raw
  if runOCRDecision raw focus_handle monitor then
    let raw_ocr := perform_ocr_scan ocr_boxes monitor.left monitor.top (ocrStartId detected)
    detected ++ raw_ocr.filter (fun o =>
      force_ocr_vm || !(o.absolute_rectangle.any (centerCovered (uiaBlockers detected))))
  else detected

/-- `get_rect` inside `_filter_nested_elements`: Python
`el.get('rect') or el.get('absolute_rectangle')` (a present rectangle tuple
is truthy). -/
def get_rect (el : UIElement) : Option Rect :=
  el.rect.orElse (fun _ => el.absolute_rectangle)

/-- `get_area` inside `_filter_nested_elements`. -/
def get_area (r : Rect) : Int := (r.right - r.left) * (r.bottom - r.top)

/-- The tolerance-expanded containment test of `_filter_nested_elements`:
`kept_rect` lies within `current_rect` expanded by 5 pixels on every side. -/
def keptWithin (kept_rect current_rect : Rect) : Bool :=
  decide (current_rect.left - 5 ≤ kept_rect.left) &&
  decide (current_rect.top - 5 ≤ kept_rect.top) &&
  decide (kept_rect.right ≤ current_rect.right + 5) &&
  decide (kept_rect.bottom ≤ current_rect.bottom + 5)

/-- The redundancy test of `_filter_nested_elements` against one kept item:
containment with tolerance and `kept_area / current_area > 0.80`, the float
comparison modelled exactly over the integers (`5*ka > 4*ca`; `ca > 0` on
every call). -/
def isRedundantAgainst (current_rect : Rect) (current_area : Int)
    (kept : UIElement × Int × Rect) : Bool :=
  keptWithin kept.2.2 current_rect && decide (5 * kept.2.1 > 4 * current_area)

/-- The keep loop of `_filter_nested_elements`, smallest area first:
nonpositive areas are dropped, an item is dropped when some already-kept
item makes it redundant, all others are appended. -/
def filterNestedLoop : List (UIElement × Int × Rect) → List (UIElement × Int × Rect) →
    List (UIElement × Int × Rect)
  | [], kept => kept
  | item :: rest, kept =>
    if item.2.1 ≤ 0 then filterNestedLoop rest kept
    else if kept.any (isRedundantAgainst item.2.2 item.2.1) then filterNestedLoop rest kept
    else filterNestedLoop rest (kept ++ [item])

/-- `_filter_nested_elements` of `core.py`: pair each element that carries a
rectangle with its area, stable-sort ascending by area (Python `list.sort`
is stable; `List.insertionSort` with `≤` is its stable counterpart), run
the keep loop, and return the kept elements. -/
def _filter_nested_elements (elements : List UIElement) : List UIElement :=
  let with_area := elements.filterMap (fun el =>
    (get_rect el).map (fun r => (el, get_area r, r)))
  let sorted := with_area.insertionSort (fun a b => a.2.1 ≤ b.2.1)
  (filterNestedLoop sorted []).map (·.1)

/-- The engine-side focus state of `OSAgent` (`focus_stack`,
`known_windows` — an insertion-ordered dict —, `active_app_name`,
`focus_handle`). -/
structure FocusState where
  focus_stack : List (String × Nat)
  known_windows : List (String × Nat)
  active_app_name : Option String
  focus_handle : Option Nat
deriving DecidableEq, Repr

/-- The engine start state. -/
def initFocusState : FocusState := ⟨[], [], none, none⟩

/-- Python dict write `m[k] = v` on an insertion-ordered association list:
overwrite in place, else append. -/
def dictInsert (m : List (String × Nat)) (k : String) (v : Nat) : List (String × Nat) :=
  if m.any (fun p => p.1 == k) then
    m.map (fun p => if p.1 == k then (k, v) else p)
  else m ++ [(k, v)]

/-- Python dict read `m.get(k)`. -/
def dictGet (m : List (String × Nat)) (k : String) : Option Nat :=
  (m.find? (fun p => p.1 == k)).map (·.2)

/-- Python guarded dict delete (`if k in m: del m[k]`). -/
def dictDelete (m : List (String × Nat)) (k : String) : List (String × Nat) :=
  m.filter (fun p => p.1 != k)

/-- `OSAgent._update_focus_stack`: drop stack entries with the same handle,
push the new pair, make it active, record it in `known_windows`, and
foreground the handle (returned as an effect). -/
def _update_focus_stack (s : FocusState) (app_name : String) (handle : Nat) :
    FocusState × List Nat :=
  (⟨(s.focus_stack.filter (fun x => decide (x.2 ≠ handle))) ++ [(app_name, handle)],
    dictInsert s.known_windows app_name handle,
    some app_name, some handle⟩,
   [handle])

/-- The popup ignore-list of `_run_executor_sprint`. -/
def ignored_titles : List String :=
  ["Default IME", "MSCTFIME UI", "NVIDIA GeForce Overlay",
   "Windows-Widgets", "Windows Widgets", "SearchHost",
   "StartMenuExperienceHost", "Cortana", "Program Manager",
   "Task View", "PopupHost"]

/-- The popup scan of `_run_executor_sprint`: the first window of the live
list whose handle is new relative to the previous snapshot, whose title is
neither ignored nor blank, and whose area exceeds 20×20. -/
def popupCandidate (prev_snapshot : List Nat) (wins : List WindowRec) : Option WindowRec :=
  wins.find? (fun w =>
    decide (w.handle ∉ prev_snapshot) &&
    !(ignored_titles.contains w.title) &&
    pyStrip w.title != "" &&
    decide (w.rect.right - w.rect.left > 20) &&
    decide (w.rect.bottom - w.rect.top > 20))

/-- The `while self.focus_stack` recovery loop of `_run_executor_sprint`,
on the reversed stack (head = top): pop the top, then restore the new top
when its handle is live, else keep popping; an emptied stack reports no
fallback.  Returns the remaining reversed stack and the restored entry. -/
def staleRecoverAux (live : List Nat) :
    List (String × Nat) → List (String × Nat) × Option (String × Nat)
  | [] => ([], none)
  | _ :: rest =>
    match rest with
    | [] => ([], none)
    | prev :: _ =>
      if prev.2 ∈ live then (rest, some prev)
      else staleRecoverAux live rest

/-- One cycle of the auto-focus block at the top of the executor loop of
`_run_executor_sprint`: popup auto-detection first; when no popup fired and
the tracked focus handle is no longer live, stale-handle recovery.  The
second component lists the handles passed to `bring_window_to_front`. -/
def reconcile (s : FocusState) (prev_snapshot : List Nat) (wins : List WindowRec) :
    FocusState × List Nat :=
  match popupCandidate prev_snapshot wins with
  | some w => _update_focus_stack s w.title w.handle
  | none =>
    if truthyHandle s.focus_handle ∧ s.focus_handle.getD 0 ∉ wins.map (·.handle) then
      match staleRecoverAux (wins.map (·.handle)) s.focus_stack.reverse with
      | (rev, some prev) =>
        ({ s with focus_stack := rev.reverse,
                  active_app_name := some prev.1,
                  focus_handle := some prev.2 }, [prev.2])
      | (rev, none) =>
        ({ s with focus_stack := rev.reverse,
                  active_app_name := none,
                  focus_handle := none }, [])
    else (s, [])

/-- The focus-state operations of the claim: `_update_focus_stack` itself,
one reconciliation cycle (popup auto-detection plus stale recovery), and the
dispatcher bookkeeping of `_run_executor_sprint` for `launch_app`
(`res_handle` is the handle of a success result, if any), `close_window`
and `focus_window`. -/
inductive AgentOp where
  | updateFocus (app_name : String) (handle : Nat)
  | cycleReconcile (prev_snapshot : List Nat) (wins : List WindowRec)
  | launchBook (app_name : String) (res_handle : Option Nat)
  | closeBook
  | focusBook (app_name : String)
deriving Repr

/-- One step of the focus state machine; the second component lists the
handles passed to `bring_window_to_front`. -/
def agentStep (s : FocusState) : AgentOp → FocusState × List Nat
  | .updateFocus a h => _update_focus_stack s a h
  | .cycleReconcile prev wins => reconcile s prev wins
  | .launchBook a rh =>
    if truthyHandle rh then
      ({ s with known_windows := dictInsert s.known_windows a (rh.getD 0),
                active_app_name := some a }, [])
    else (s, [])
  | .closeBook =>
    if truthyHandle s.focus_handle then
      if truthyStr s.active_app_name then
        ({ s with known_windows := dictDelete s.known_windows (s.active_app_name.getD ""),
                  focus_stack := s.focus_stack.filter
                    (fun x => decide (x.2 ≠ s.focus_handle.getD 0)),
                  active_app_name := none,
                  focus_handle := none }, [])
      else (s, [])
    else (s, [])
  | .focusBook name =>
    match s.known_windows.find? (fun p => pyLower p.1 == pyLower name) with
    | some p => ({ s with active_app_name := some p.1 }, [p.2])
    | none => (s, [])

/-- A sequence of focus-state operations run from engine start. -/
def runAgentOps (ops : List AgentOp) : FocusState :=
  ops.foldl (fun s op => (agentStep s op).1) initFocusState

/-- The focus-state invariant: no duplicate handles on the stack, and a
non-`None` active handle is the handle of the top (last) stack entry. -/
def FocusInv (s : FocusState) : Prop :=
  (s.focus_stack.map Prod.snd).Nodup ∧
  ∀ h, s.focus_handle = some h → s.focus_stack.getLast?.map Prod.snd = some h

/-- Transport outcome of one connection-per-request IPC round trip: a reply
dict, a poll timeout, or a raised connection/transport error. -/
inductive IPCOutcome where
  | reply (status : String) (message : String) (data : List RawElement)
  | timeout
  | transportError
deriving Repr

/-- `_trigger_ipc_analysis` of `core.py`: an `.error` value models an
exception propagated to the caller (the `ValueError("HandleInvalid")`
re-raised by the handler), `.ok` a normal return.  A scoped request that
times out raises `HandleInvalid`; an unscoped timeout raises
`TimeoutError`, which the handler swallows into `[]`; transport errors are
swallowed into `[]`. -/
def _trigger_ipc_analysis (root_handle : Option Nat) (o : IPCOutcome) :
    Except String (List RawElement) :=
  match o with
  | .reply status message data =>
    if status == "success" then .ok data
    else if message == "HandleInvalid" then .error "HandleInvalid"
    else .ok []
  | .timeout =>
    if truthyHandle root_handle then .error "HandleInvalid"
    else .ok []
  | .transportError => .ok []

/-- Transport outcome of one `check_handle` probe: a reply whose `exists`
key may be absent, a reply that is not a dict (so `.get` raises), a poll
timeout, or a connection error. -/
inductive ProbeOutcome where
  | reply (exists_key : Option Bool)
  | malformed
  | timeout
  | transportError
deriving DecidableEq, Repr

/-- `check_ipc_handle_exists` of `core.py`: `recv().get("exists", False)`
on a reply; every other outcome (timeout, connection error, malformed
reply) falls into the bare `except` or the final `return False`. -/
def check_ipc_handle_exists : ProbeOutcome → Bool
  | .reply e => e.getD false
  | .malformed => false
  | .timeout => false
  | .transportError => false

/-- The focus resolution at the top of `OSAgent._capture_state` (lines
327–339): revalidate the remembered active app handle via the probe;
on a dead or unknown handle demote to full-desktop scanning.  Returns
`(target_handle, active_app_name, known_windows)` after the block. -/
def captureResolveTarget (active_app_name : Option String)
    (known_windows : List (String × Nat)) (probe : Nat → ProbeOutcome) :
    Option Nat × Option String × List (String × Nat) :=
  if truthyStr active_app_name then
    let a := active_app_name.getD ""
    match dictGet known_windows a with
    | some potential_handle =>
      if check_ipc_handle_exists (probe potential_handle) then
        (some potential_handle, active_app_name, known_windows)
      else (none, none, dictDelete known_windows a)
    | none => (none, none, known_windows)
  else (none, active_app_name, known_windows)

/-- An abstract command dict as consumed by `execute_os_action`; fields
mirror the `action.get(...)` reads (string fields default to `""`,
`duration` to its call-site default `3`). -/
structure OSAction where
  command : String
  element_id : Option Nat
  text : String
  app_name : String
  cmd_line : String
  handle : Option Nat
  direction : String
  duration : Int
deriving Repr

/-- A result dict returned by `execute_os_action` (keys that a branch does
not set are `none`). -/
structure ActionResult where
  status : String
  message : Option String
  output : Option String
  handle : Option Nat
  action_type : Option String
  detected_title : Option String
deriving DecidableEq, Repr

/-- The low-level calls a dispatch issues (pyautogui, IPC `interact`,
process spawn, window foregrounding, IPC `close_window`); the dashboard
cursor feedback and sleeps are not modelled. -/
inductive OSEffect where
  | pyMove (x y : Int)
  | pyClick (kind : String) (x y : Int)
  | pyWrite (text : String)
  | pyPress (key : String)
  | ipcInteract (top_handle : Nat) (interaction_type : String) (text_to_type : Option String)
  | runCmd (cmd : String)
  | spawn (cmd : String)
  | foreground (handle : Nat)
  | ipcClose (handle : Nat)
deriving DecidableEq, Repr

/-- Outcome of the `close_window` IPC round trip inside
`execute_os_action`: a reply dict (returned verbatim), a poll timeout
(falls through, so the branch returns `None`), or an exception. -/
inductive CloseOutcome where
  | reply (r : ActionResult)
  | timeout
  | exc (msg : String)
deriving Repr

/-- The environment of one `execute_os_action` call: the app index, whether
`subprocess.Popen` succeeds, the `subprocess.run` outcome of `execute_cmd`
(`.ok (stdout, stderr)` or the exception text), the window list before a
launch, the window list returned by each of the 20 one-second launch polls,
and the `close_window` transport outcome. -/
structure ExecEnv where
  app_map : List (String × String)
  launch_ok : Bool
  launch_err : String
  cmd_outcome : Except String (String × String)
  windows_before : List WindowRec
  polls : List (List WindowRec)
  close_outcome : CloseOutcome

/-- The `direct_aliases` dict of the `launch_app` branch. -/
def direct_aliases : List (String × String) :=
  [("settings", "ms-settings:"), ("einstellungen", "ms-settings:"),
   ("calc", "calc.exe"), ("rechner", "calc.exe"), ("calculator", "calc.exe"),
   ("terminal", "wt.exe"), ("cmd", "cmd.exe"),
   ("explorer", "explorer.exe"), ("datei", "explorer.exe"),
   ("code", "code"), ("vscode", "code"),
   ("notepad", "notepad.exe"), ("editor", "notepad.exe"),
   ("browser", "msedge.exe"), ("edge", "msedge.exe"),
   ("chrome", "chrome.exe"), ("firefox", "firefox.exe")]

/-- Stable descending sort by score (Python `sort(key=..., reverse=True)`
is stable; insertion sort with this relation is its stable counterpart). -/
def sortByScoreDesc {α : Type} (l : List (Int × α)) : List (Int × α) :=
  l.insertionSort (fun a b => b.1 ≤ a.1)

/-- The launch-command resolution of the `launch_app` branch: direct alias,
exact app-index hit, substring-overlap scored fallback, and finally the raw
name as a literal command (quoted when it contains a space). -/
def resolveLaunchCmd (app_name_input : String) (app_map : List (String × String)) : String :=
  match (direct_aliases.find? (fun p => p.1 == app_name_input)).map (·.2) with
  | some c => c
  | none =>
    match (app_map.find? (fun p => p.1 == app_name_input)).map (·.2) with
    | some c => c
    | none =>
      let candidates := app_map.filterMap (fun p =>
        let score : Int :=
          if strHas p.1 app_name_input then
            100 - ((p.1.length : Int) - (app_name_input.length : Int))
          else if strHas app_name_input p.1 then 80 else 0
        if score > 0 then some (score, p.2) else none)
      match (sortByScoreDesc candidates).head? with
      | some sc => sc.2
      | none =>
        if strHas app_name_input " " && !strStarts app_name_input "\"" then
          "\"" ++ app_name_input ++ "\""
        else app_name_input

/-- The `explorer.exe` wrapping of shell/URI launch commands. -/
def launchFinalCmd (target_cmd : String) : String :=
  if strStarts (pyLower target_cmd) "shell:" || strHas target_cmd "://" ||
     strStarts (pyLower target_cmd) "ms-" then
    "explorer.exe \"" ++ target_cmd ++ "\""
  else target_cmd

/-- One window-diff poll of the `launch_app` branch: new handles relative
to the pre-launch snapshot, filtered by minimum size 50×50, scored by
substring match against the requested name plus VM-keyword bonuses, best
score first (stable). -/
def scanPoll (app_name_input : String) (handles_before : List Nat)
    (wins : List WindowRec) : Option WindowRec :=
  let candidates := wins.filter (fun w => decide (w.handle ∉ handles_before))
  let valid := candidates.filterMap (fun cand =>
    let w_w := cand.rect.right - cand.rect.left
    let w_h := cand.rect.bottom - cand.rect.top
    let title_lower := pyLower cand.title
    if w_w > 50 ∧ w_h > 50 then
      some (((if strHas title_lower app_name_input then (10 : Int) else 0) +
             (if strHas title_lower "oracle" || strHas title_lower "virtualbox" then 5 else 0) +
             (if strHas title_lower "vm" then 2 else 0)), cand)
    else none)
  (sortByScoreDesc valid).head?.map (·.2)

/-- The polling loop of the `launch_app` branch: up to 20 polls, stopping
at the first poll that yields a qualifying new window. -/
def launchDetect (app_name_input : String) (handles_before : List Nat) :
    List (List WindowRec) → Option WindowRec
  | [] => none
  | p :: ps =>
    match scanPoll app_name_input handles_before p with
    | some w => some w
    | none => launchDetect app_name_input handles_before ps

/-- The click/double_click/right_click branch of `execute_os_action`. -/
def clickBranch (command : String) (action : OSAction) (all_elements : List UIElement) :
    Option ActionResult × List OSEffect :=
  match action.element_id.bind (fun eid => all_elements.find? (fun el => el.id == eid)) with
  | none => (none, [])
  | some target =>
    if target.type == "OCR_TEXT" then
      match target.absolute_rectangle with
      | some r =>
        let cx := (r.left + r.right).fdiv 2
        let cy := (r.top + r.bottom).fdiv 2
        (none, [.pyMove cx cy, .pyClick command cx cy])
      | none => (none, [])
    else if !truthyHandle target.top_level_handle then
      match target.absolute_rectangle with
      | some r =>
        (none, [.pyClick "click" ((r.left + r.right).fdiv 2) ((r.top + r.bottom).fdiv 2)])
      | none => (none, [])
    else
      (none, [.ipcInteract (target.top_level_handle.getD 0) command none])

/-- The type branch of `execute_os_action`: OCR targets get a focus click
then direct injection; an invalid target falls back to blind typing;
structural targets get an `interact` click then an `interact` type. -/
def typeBranch (action : OSAction) (all_elements : List UIElement) :
    Option ActionResult × List OSEffect :=
  match action.element_id with
  | none => (none, [.pyWrite action.text])
  | some eid =>
    match all_elements.find? (fun el => el.id == eid) with
    | some target =>
      if target.type == "OCR_TEXT" then
        match target.absolute_rectangle with
        | some r =>
          (none, [.pyClick "click" ((r.left + r.right).fdiv 2) ((r.top + r.bottom).fdiv 2),
                  .pyWrite action.text])
        | none => (none, [])
      else if !truthyHandle target.top_level_handle then
        (none, [.pyWrite action.text])
      else
        (none, [.ipcInteract (target.top_level_handle.getD 0) "click" none,
                .ipcInteract (target.top_level_handle.getD 0) "type" (some action.text)])
    | none => (none, [.pyWrite action.text])

/-- The `launch_app` branch after a successful process spawn: window-diff
polling and the success-either-way result. -/
def launchResult (app_name_input : String) (final_cmd : String)
    (handles_before : List Nat) (polls : List (List WindowRec)) :
    Option ActionResult × List OSEffect :=
  match launchDetect app_name_input handles_before polls with
  | some w =>
    (some ⟨"success", none, none, some w.handle, some "launched", some w.title⟩,
     [.spawn final_cmd, .foreground w.handle])
  | none =>
    (some ⟨"success", some "Command executed, but window detection timed out.", none,
           none, none, none⟩,
     [.spawn final_cmd])

/-- `execute_os_action` of `core.py` as a dispatch over the command string.
`.error` models the one uncaught `raise` (the `ValueError` for a blank
`launch_app` name, whose Python text is "'launch_app' requires
'app_name'."); every other branch returns.  Branches that fall through to
the end of the Python function return `None`. -/
def execute_os_action (action : OSAction) (all_elements : List UIElement) (env : ExecEnv) :
    Except String (Option ActionResult × List OSEffect) :=
  if action.command == "click" || action.command == "double_click" ||
     action.command == "right_click" then
    .ok (clickBranch action.command action all_elements)
  else if action.command == "execute_cmd" then
    match env.cmd_outcome with
    | .ok (stdout, stderr) =>
      let output := pyStrip (stdout ++ "\n" ++ stderr)
      let output := if output == "" then "Command executed successfully (No Output)." else output
      .ok (some ⟨"success", none, some output, none, none, none⟩, [.runCmd action.cmd_line])
    | .error e =>
      .ok (some ⟨"error", some e, none, none, none, none⟩, [.runCmd action.cmd_line])
  else if action.command == "scroll" then
    .ok (none, [.pyPress (if action.direction == "down" then "pagedown" else "pageup")])
  else if action.command == "type" then
    .ok (typeBranch action all_elements)
  else if action.command == "launch_app" then
    let app_name_input := pyStrip (pyLower action.app_name)
    if app_name_input == "" then .error "launch_app requires app_name."
    else
      let handles_before := env.windows_before.map (·.handle)
      let target_cmd := resolveLaunchCmd app_name_input env.app_map
      let final_cmd := launchFinalCmd target_cmd
      if !env.launch_ok then
        .ok (some ⟨"error", some ("Failed to launch: " ++ env.launch_err),
                   none, none, none, none⟩, [])
      else
        .ok (launchResult app_name_input final_cmd handles_before env.polls)
  else if action.command == "focus_window" then
    if truthyHandle action.element_id then
      .ok (some ⟨"success", some "Window focused.", none, none, none, none⟩,
           [.foreground (action.element_id.getD 0)])
    else .ok (none, [])
  else if action.command == "close_window" then
    if !truthyHandle action.handle then
      .ok (some ⟨"error", some "No handle provided for close_window.", none, none, none, none⟩,
           [])
    else
      match env.close_outcome with
      | .reply r => .ok (some r, [.ipcClose (action.handle.getD 0)])
      | .timeout => .ok (none, [.ipcClose (action.handle.getD 0)])
      | .exc m =>
        .ok (some ⟨"error", some m, none, none, none, none⟩, [.ipcClose (action.handle.getD 0)])
  else if action.command == "press_enter" then
    .ok (none, [.pyPress "enter"])
  else if action.command == "wait" then
    .ok (none, [])
  else
    .ok (none, [])

/-- A 1920×1080 primary monitor at the origin. -/
def mon0 : Monitor := ⟨0, 0, 1920, 1080⟩

/-- A small structural button element as reported by the server. -/
def rawBtn : RawElement := ⟨"b", "Button", "", none, ⟨0, 0, 10, 10⟩, some 1⟩

/-- A structural scan with more retained elements than the TEXT id base. -/
def raw9001 : List RawElement := List.replicate 9001 rawBtn

/-- A scan rooted at an Oracle VirtualBox manager window. -/
def rawOracle : RawElement :=
  ⟨"Oracle VM VirtualBox Manager", "Window", "", none, ⟨0, 0, 800, 600⟩, some 7⟩

/-- The owning window element of a Notepad scan. -/
def rawNotepadWin : RawElement := ⟨"Notepad", "Window", "", none, ⟨0, 0, 800, 600⟩, some 8⟩

/-- A Notepad scan with 12 counted (non-Window/non-Pane) structural
elements. -/
def rawNotepad : List RawElement := rawNotepadWin :: List.replicate 12 rawBtn

/-- One OCR text box in local image coordinates. -/
def box0 : OcrBox := ⟨5, 5, 50, 20, "hello"⟩

/-- The OCR element `perform_ocr_scan` builds from `box0` at offset (0,0)
and start id 9000. -/
def ocrEl0 : UIElement :=
  ⟨9000, "hello", "OCR_TEXT", none, some ⟨5, 5, 50, 20⟩, none, none⟩

/-- A large annotated element (the container A of the redundancy-filter
scenario). -/
def elA : UIElement := ⟨1, "A", "Pane", none, some ⟨0, 0, 100, 100⟩, none, none⟩

/-- A small contained annotated element (the B of the redundancy-filter
scenario, 1% of the area of A). -/
def elB : UIElement := ⟨2, "B", "Button", none, some ⟨0, 0, 10, 10⟩, none, none⟩

/-- The focus state of the stale-recovery scenario: stack
`[(A,1),(B,2),(C,3)]`, active handle 3. -/
def s6 : FocusState :=
  ⟨[("A", 1), ("B", 2), ("C", 3)], [("A", 1), ("B", 2), ("C", 3)], some "C", some 3⟩

/-- The live windows of the stale-recovery scenario: handles 1 and 2;
handle 3 is gone. -/
def wins6 : List WindowRec :=
  [⟨1, "A", ⟨0, 0, 100, 100⟩⟩, ⟨2, "B", ⟨0, 0, 100, 100⟩⟩]

/-- A focus state with a single stack entry whose handle has died. -/
def s6b : FocusState := ⟨[("X", 5)], [("X", 5)], some "X", some 5⟩

/-- Pre-launch window with handle 10. -/
def w10 : WindowRec := ⟨10, "Desktop Thing", ⟨0, 0, 300, 300⟩⟩

/-- Pre-launch window with handle 11. -/
def w11 : WindowRec := ⟨11, "Other", ⟨0, 0, 300, 300⟩⟩

/-- The 200×300 calculator window that appears after the launch. -/
def w12 : WindowRec := ⟨12, "calculator", ⟨0, 0, 200, 300⟩⟩

/-- A dispatch environment with no windows and empty polls. -/
def env0 : ExecEnv := ⟨[], true, "", .ok ("", ""), [], [], .timeout⟩

/-- The dispatch environment of the `launch_app` scenario: live handles
{10,11} before the launch, one poll in which handle 12 has appeared. -/
def envLaunch : ExecEnv := ⟨[], true, "", .ok ("", ""), [w10, w11], [[w10, w11, w12]], .timeout⟩

/-- The `launch_app` command of the scenario. -/
def actLaunchCalc : OSAction := ⟨"launch_app", none, "", "calculator", "", none, "", 3⟩

/-- A click on an element id that is absent from the element list. -/
def actClick5 : OSAction := ⟨"click", some 5, "", "", "", none, "", 3⟩

/-- A probe environment in which every `check_handle` request times out
(Automation Server unreachable). -/
def probeDead : Nat → ProbeOutcome := fun _ => .timeout

theorem update_focus_inv (s : FocusState) (a : String) (h : Nat)
    (hs : (s.focus_stack.map Prod.snd).Nodup) :
    FocusInv (_update_focus_stack s a h).1 := by
  constructor
  · show (((s.focus_stack.filter (fun x => decide (x.2 ≠ h))) ++ [(a, h)]).map Prod.snd).Nodup
    rw [List.map_append, List.nodup_append]
    refine ⟨hs.sublist ((List.filter_sublist _).map Prod.snd), List.nodup_singleton h, ?_⟩
    intro x hx hx2
    rcases List.mem_map.mp hx with ⟨pair, hpair, hsnd⟩
    have hne : pair.2 ≠ h := of_decide_eq_true (List.mem_filter.mp hpair).2
    rcases List.mem_singleton.mp hx2 with rfl
    exact hne hsnd
  · intro h' hh'
    have : h = h' := Option.some.inj hh'
    subst this
    show ((s.focus_stack.filter (fun x => decide (x.2 ≠ h))) ++ [(a, h)]).getLast?.map Prod.snd
        = some h
    rw [List.getLast?_concat]
    rfl

theorem staleRecoverAux_drop (live : List Nat) :
    ∀ l : List (String × Nat), ∃ n, (staleRecoverAux live l).1 = l.drop n := by
  intro l
  induction l with
  | nil => exact ⟨0, rfl⟩
  | cons x rest ih =>
    cases rest with
    | nil => exact ⟨1, rfl⟩
    | cons prev t =>
      by_cases hp : prev.2 ∈ live
      · exact ⟨1, by simp [staleRecoverAux, hp]⟩
      · obtain ⟨n, hn⟩ := ih
        exact ⟨n + 1, by simpa [staleRecoverAux, hp] using hn⟩

theorem staleRecoverAux_some (live : List Nat) :
    ∀ l rev p, staleRecoverAux live l = (rev, some p) → rev.head? = some p ∧ p.2 ∈ live := by
  intro l
  induction l with
  | nil => intro rev p hp; cases hp
  | cons x rest ih =>
    cases rest with
    | nil => intro rev p hp; cases (Prod.mk.injEq _ _ _ _ ▸ hp).2
    | cons prev t =>
      intro rev p hp
      by_cases hl : prev.2 ∈ live
      · simp only [staleRecoverAux, if_pos hl] at hp
        obtain ⟨h1, h2⟩ := Prod.mk.injEq _ _ _ _ ▸ hp
        subst h1
        cases Option.some.inj h2
        exact ⟨rfl, hl⟩
      · simp only [staleRecoverAux, if_neg hl] at hp
        exact ih rev p hp

theorem staleRecoverAux_none (live : List Nat) :
    ∀ l rev, staleRecoverAux live l = (rev, none) → rev = [] := by
  intro l
  induction l with
  | nil => intro rev hp; exact (Prod.mk.injEq _ _ _ _ ▸ hp).1.symm
  | cons x rest ih =>
    cases rest with
    | nil => intro rev hp; exact (Prod.mk.injEq _ _ _ _ ▸ hp).1.symm
    | cons prev t =>
      intro rev hp
      by_cases hl : prev.2 ∈ live
      · simp only [staleRecoverAux, if_pos hl] at hp
        cases (Prod.mk.injEq _ _ _ _ ▸ hp).2
      · simp only [staleRecoverAux, if_neg hl] at hp
        exact ih rev hp

theorem staleRecoverAux_all_dead (live : List Nat) :
    ∀ l : List (String × Nat), (∀ e ∈ l.drop 1, e.2 ∉ live) →
      staleRecoverAux live l = ([], none) := by
  intro l
  induction l with
  | nil => intro _; rfl
  | cons x rest ih =>
    cases rest with
    | nil => intro _; rfl
    | cons prev t =>
      intro hdead
      have hp : prev.2 ∉ live := hdead prev (by simp)
      have : staleRecoverAux live (x :: prev :: t) = staleRecoverAux live (prev :: t) := by
        simp [staleRecoverAux, hp]
      rw [this]
      refine ih (fun e he => hdead e ?_)
      rw [List.drop_one] at he ⊢
      exact List.mem_cons_of_mem prev he

theorem reconcile_inv (s : FocusState) (prev : List Nat) (wins : List WindowRec)
    (hInv : FocusInv s) : FocusInv (reconcile s prev wins).1 := by
  have hnodup_of_aux : ∀ rev found,
      staleRecoverAux (wins.map (·.handle)) s.focus_stack.reverse = (rev, found) →
      (rev.map Prod.snd).Nodup := by
    intro rev found haux
    obtain ⟨n, hn⟩ := staleRecoverAux_drop (wins.map (·.handle)) s.focus_stack.reverse
    rw [haux] at hn
    simp only at hn
    subst hn
    refine List.Nodup.sublist ((List.drop_sublist n _).map Prod.snd) ?_
    rw [List.map_reverse, List.nodup_reverse]
    exact hInv.1
  unfold reconcile
  split
  · rename_i w _
    exact update_focus_inv s w.title w.handle hInv.1
  · split
    · split
      · rename_i rev p haux
        obtain ⟨hhead, _⟩ := staleRecoverAux_some _ _ rev p haux
        refine ⟨?_, ?_⟩
        · show ((rev.reverse).map Prod.snd).Nodup
          rw [List.map_reverse, List.nodup_reverse]
          exact hnodup_of_aux rev (some p) haux
        · intro h' hh'
          cases Option.some.inj hh'
          show (rev.reverse).getLast?.map Prod.snd = some p.2
          rw [List.getLast?_reverse, hhead]
          rfl
      · rename_i rev haux
        have hrev : rev = [] := staleRecoverAux_none _ _ rev haux
        subst hrev
        exact ⟨List.nodup_nil, fun h' hh' => Option.noConfusion hh'⟩
    · exact hInv

theorem agentStep_inv (s : FocusState) (op : AgentOp) (hInv : FocusInv s) :
    FocusInv (agentStep s op).1 := by
  cases op with
  | updateFocus a h => exact update_focus_inv s a h hInv.1
  | cycleReconcile prev wins => exact reconcile_inv s prev wins hInv
  | launchBook a rh =>
    simp only [agentStep]
    split
    · exact ⟨hInv.1, hInv.2⟩
    · exact hInv
  | closeBook =>
    simp only [agentStep]
    split
    · split
      · refine ⟨?_, fun h' hh' => Option.noConfusion hh'⟩
        exact hInv.1.sublist ((List.filter_sublist _).map Prod.snd)
      · exact hInv
    · exact hInv
  | focusBook name =>
    simp only [agentStep]
    split
    · exact ⟨hInv.1, hInv.2⟩
    · exact hInv

theorem foldl_agentStep_inv :
    ∀ (ops : List AgentOp) (s : FocusState), FocusInv s →
      FocusInv (ops.foldl (fun s op => (agentStep s op).1) s) := by
  intro ops
  induction ops with
  | nil => intro s hs; exact hs
  | cons op rest ih => intro s hs; exact ih _ (agentStep_inv s op hs)

/-- C1: after any sequence of the focus state-machine operations
(`_update_focus_stack`, popup auto-detection, stale-handle recovery, and
the dispatcher bookkeeping for launch_app / close_window / focus_window)
run from engine start, the focus stack contains no two entries with the
same handle, and the active handle, whenever it is not `None`, is the
handle of the top (last) stack entry. -/
theorem focus_state_machine_invariant : ∀ ops : List AgentOp, FocusInv (runAgentOps ops) :=
  fun ops =>
    foldl_agentStep_inv ops initFocusState
      ⟨List.nodup_nil, fun h hh => Option.noConfusion hh⟩

/-- C6: stale-handle recovery restores `(B,2)` from the scenario stack
`[(A,1),(B,2),(C,3)]` with active handle 3 and live handles {1,2}
(re-foregrounding handle 2), and whenever the stack empties without
finding a live handle below the top, both the active handle and the active
app name are cleared to `None`. -/
theorem stale_recovery_behavior :
    (reconcile s6 [1, 2, 3] wins6 =
      (⟨[("A", 1), ("B", 2)], [("A", 1), ("B", 2), ("C", 3)], some "B", some 2⟩, [2])) ∧
    (∀ (s : FocusState) (prev : List Nat) (wins : List WindowRec),
      popupCandidate prev wins = none →
      truthyHandle s.focus_handle = true →
      s.focus_handle.getD 0 ∉ wins.map (·.handle) →
      (∀ e ∈ s.focus_stack.dropLast, e.2 ∉ wins.map (·.handle)) →
      (reconcile s prev wins).1.focus_handle = none ∧
      (reconcile s prev wins).1.active_app_name = none ∧
      (reconcile s prev wins).1.focus_stack = []) := by
  constructor
  · decide
  · intro s prev wins hpc htr hgone hstack
    have haux : staleRecoverAux (wins.map (·.handle)) s.focus_stack.reverse = ([], none) := by
      apply staleRecoverAux_all_dead
      intro e he
      apply hstack
      rw [List.drop_one, List.tail_reverse] at he
      exact List.mem_reverse.mp he
    unfold reconcile
    rw [hpc]
    simp only [if_pos (And.intro htr hgone), haux]
    exact ⟨trivial, trivial, List.reverse_nil⟩

theorem stale_recovery_behavior_witness :
    (reconcile s6b [5] []).1.focus_handle = none ∧
    (reconcile s6b [5] []).1.active_app_name = none ∧
    (reconcile s6b [5] []).1.focus_stack = [] :=
  stale_recovery_behavior.2 s6b [5] [] (by decide) (by decide) (by decide) (by decide)

theorem buildDetectedAux_ids (f : Option Nat) (m : Rect) :
    ∀ (raw : List RawElement) (acc : List UIElement),
      acc.map (·.id) = List.range acc.length →
      (buildDetectedAux f m raw acc).map (·.id)
        = List.range (buildDetectedAux f m raw acc).length := by
  intro raw
  induction raw with
  | nil => intro acc h; exact h
  | cons d rest ih =>
    intro acc h
    unfold buildDetectedAux
    split
    · exact ih acc h
    · apply ih
      rw [List.map_append, List.length_append, h]
      simp [List.range_succ]

theorem buildDetected_ids (raw : List RawElement) (f : Option Nat) (m : Monitor) :
    (buildDetected raw f m).map (·.id) = List.range (buildDetected raw f m).length :=
  buildDetectedAux_ids f (monitorRect m) raw [] rfl

theorem buildDetectedAux_mem (f : Option Nat) (m : Rect) :
    ∀ (raw : List RawElement) (acc : List UIElement) (e : UIElement),
      e ∈ buildDetectedAux f m raw acc →
      e ∈ acc ∨ ∃ d ∈ raw, e.name = d.name ∧ e.type = rawElType d ∧
        e.absolute_rectangle = some d.rectangle_coords := by
  intro raw
  induction raw with
  | nil => intro acc e he; exact .inl he
  | cons d rest ih =>
    intro acc e he
    unfold buildDetectedAux at he
    split at he
    · rcases ih _ e he with h | ⟨d', hd', hprops⟩
      · exact .inl h
      · exact .inr ⟨d', List.mem_cons_of_mem d hd', hprops⟩
    · rcases ih _ e he with h | ⟨d', hd', hprops⟩
      · rcases List.mem_append.mp h with h1 | h2
        · exact .inl h1
        · rcases List.mem_singleton.mp h2 with rfl
          exact .inr ⟨d, List.mem_cons_self d rest, rfl, rfl, rfl⟩
      · exact .inr ⟨d', List.mem_cons_of_mem d hd', hprops⟩

theorem buildDetectedAux_length (f : Option Nat) (m : Rect) (hf : truthyHandle f = true) :
    ∀ (raw : List RawElement) (acc : List UIElement),
      (buildDetectedAux f m raw acc).length = acc.length + raw.length := by
  intro raw
  induction raw with
  | nil => intro acc; simp [buildDetectedAux]
  | cons d rest ih =>
    intro acc
    unfold buildDetectedAux
    rw [if_neg (by simp [hf])]
    rw [ih]
    simp
    omega

theorem perform_ocr_scanAux_ids (gx gy : Int) (s : Nat) :
    ∀ (boxes : List OcrBox) (acc : List UIElement),
      (perform_ocr_scanAux gx gy s boxes acc).map (·.id)
        = acc.map (·.id) ++ List.range' (s + acc.length) boxes.length := by
  intro boxes
  induction boxes with
  | nil => intro acc; simp [perform_ocr_scanAux]
  | cons b rest ih =>
    intro acc
    unfold perform_ocr_scanAux
    rw [ih, List.map_append, List.length_append]
    simp [List.range'_succ, List.append_assoc]
    omega

theorem perform_ocr_scan_ids (boxes : List OcrBox) (gx gy : Int) (s : Nat) :
    (perform_ocr_scan boxes gx gy s).map (·.id) = List.range' s boxes.length := by
  have h := perform_ocr_scanAux_ids gx gy s boxes []
  simpa [perform_ocr_scan] using h

theorem perform_ocr_scanAux_mem (gx gy : Int) (s : Nat) :
    ∀ (boxes : List OcrBox) (acc : List UIElement) (e : UIElement),
      e ∈ perform_ocr_scanAux gx gy s boxes acc →
      e ∈ acc ∨ (s + acc.length ≤ e.id ∧ e.type = "OCR_TEXT") := by
  intro boxes
  induction boxes with
  | nil => intro acc e he; exact .inl he
  | cons b rest ih =>
    intro acc e he
    unfold perform_ocr_scanAux at he
    rcases ih _ e he with h | ⟨hid, ht⟩
    · rcases List.mem_append.mp h with h1 | h2
      · exact .inl h1
      · rcases List.mem_singleton.mp h2 with rfl
        exact .inr ⟨Nat.le_refl _, rfl⟩
    · refine .inr ⟨?_, ht⟩
      rw [List.length_append] at hid
      omega

theorem perform_ocr_scan_mem (boxes : List OcrBox) (gx gy : Int) (s : Nat) (e : UIElement)
    (he : e ∈ perform_ocr_scan boxes gx gy s) : s ≤ e.id ∧ e.type = "OCR_TEXT" := by
  rcases perform_ocr_scanAux_mem gx gy s boxes [] e he with h | ⟨hid, ht⟩
  · cases h
  · exact ⟨by simpa using hid, ht⟩

theorem ocrStartId_ge (detected : List UIElement)
    (h : detected.map (·.id) = List.range detected.length) :
    detected.length ≤ ocrStartId detected ∧ 9000 ≤ ocrStartId detected := by
  cases hl : detected.getLast? with
  | none =>
    have hnil : detected = [] := List.getLast?_eq_none_iff.mp hl
    subst hnil
    exact ⟨by simp [ocrStartId], by simp [ocrStartId]⟩
  | some e =>
    have hne : detected ≠ [] := by intro hnil; rw [hnil] at hl; cases hl
    obtain ⟨n, hn⟩ : ∃ n, detected.length = n + 1 := by
      have := List.length_pos.mpr hne
      exact ⟨detected.length - 1, by omega⟩
    have h1 : (detected.map (·.id)).getLast? = some e.id := by
      rw [List.getLast?_map, hl]
      rfl
    rw [h, hn, List.range_succ, List.getLast?_concat] at h1
    have hid : e.id = n := (Option.some.inj h1).symm
    have hstart : ocrStartId detected = max 9000 (e.id + 100) := by
      unfold ocrStartId
      rw [hl]
    constructor
    · rw [hstart, hn, hid]
      exact Nat.le_trans (by omega) (le_max_right 9000 (n + 100))
    · rw [hstart]
      exact le_max_left _ _

theorem observe_eq (raw : List RawElement) (boxes : List OcrBox) (f : Option Nat)
    (m : Monitor) :
    observe_os_state raw boxes f m =
      if runOCRDecision raw f m then
        buildDetected raw f m ++
          (perform_ocr_scan boxes m.left m.top (ocrStartId (buildDetected raw f m))).filter
            (fun o => vmForceOCR raw ||
              !(o.absolute_rectangle.any (centerCovered (uiaBlockers (buildDetected raw f m)))))
      else buildDetected raw f m := rfl

theorem detected_id_lt (raw : List RawElement) (f : Option Nat) (m : Monitor)
    (e : UIElement) (he : e ∈ buildDetected raw f m) :
    e.id < (buildDetected raw f m).length := by
  have h := buildDetected_ids raw f m
  have hmem : e.id ∈ (buildDetected raw f m).map (·.id) := List.mem_map_of_mem _ he
  rw [h] at hmem
  exact List.mem_range.mp hmem

theorem ocr_not_in_detected (raw : List RawElement) (boxes : List OcrBox)
    (f : Option Nat) (m : Monitor) (o : UIElement)
    (ho : o ∈ perform_ocr_scan boxes m.left m.top (ocrStartId (buildDetected raw f m))) :
    o ∉ buildDetected raw f m := by
  intro hmem
  have h1 := (perform_ocr_scan_mem _ _ _ _ o ho).1
  have h2 := detected_id_lt raw f m o hmem
  have h3 := (ocrStartId_ge _ (buildDetected_ids raw f m)).1
  omega

/-- C2 (amended): every snapshot has pairwise-unique element ids
(unconditionally); and, provided the structural scan never reports the
reserved type `OCR_TEXT` (the Automation Server emits pywinauto control
types), every `OCR_TEXT` element has id ≥ 9000, and every structural
element has id < 9000 whenever at most 9000 structural elements are
retained (structural ids equal list positions, so a scan with more than
9000 retained elements overflows the TEXT id base). -/
theorem snapshot_id_invariant_amended :
    (∀ (raw : List RawElement) (boxes : List OcrBox) (f : Option Nat) (m : Monitor),
      ((observe_os_state raw boxes f m).map (·.id)).Nodup) ∧
    (∀ (raw : List RawElement) (boxes : List OcrBox) (f : Option Nat) (m : Monitor)
       (e : UIElement),
      (∀ d ∈ raw, rawElType d ≠ "OCR_TEXT") →
      e ∈ observe_os_state raw boxes f m →
      (e.type = "OCR_TEXT" → 9000 ≤ e.id) ∧
      ((buildDetected raw f m).length ≤ 9000 → e.type ≠ "OCR_TEXT" → e.id < 9000)) := by
  constructor
  · intro raw boxes f m
    rw [observe_eq]
    split
    · rw [List.map_append, List.nodup_append]
      refine ⟨?_, ?_, ?_⟩
      · rw [buildDetected_ids]
        exact List.nodup_range _
      · have hocr : ((perform_ocr_scan boxes m.left m.top
            (ocrStartId (buildDetected raw f m))).map (·.id)).Nodup := by
          rw [perform_ocr_scan_ids]
          exact List.nodup_range' _ _ 1
        exact hocr.sublist (List.Sublist.map (fun e : UIElement => e.id)
          (List.filter_sublist _))
      · intro x hx1 hx2
        rw [buildDetected_ids] at hx1
        have hlt := List.mem_range.mp hx1
        rcases List.mem_map.mp hx2 with ⟨o, ho, rfl⟩
        have ho2 := List.mem_of_mem_filter ho
        have hge := (perform_ocr_scan_mem _ _ _ _ o ho2).1
        have hst := (ocrStartId_ge _ (buildDetected_ids raw f m)).1
        omega
    · rw [buildDetected_ids]
      exact List.nodup_range _
  · intro raw boxes f m e hraw he
    have hdet : ∀ he1 : e ∈ buildDetected raw f m,
        e.type ≠ "OCR_TEXT" ∧ e.id < (buildDetected raw f m).length := by
      intro he1
      refine ⟨?_, detected_id_lt raw f m e he1⟩
      rcases buildDetectedAux_mem _ _ raw [] e he1 with h | ⟨d, hd, _, ht, _⟩
      · cases h
      · rw [ht]
        exact hraw d hd
    rw [observe_eq] at he
    by_cases hrun : runOCRDecision raw f m = true
    · rw [if_pos hrun] at he
      rcases List.mem_append.mp he with h1 | h2
      · obtain ⟨hne, hlt⟩ := hdet h1
        exact ⟨fun ht => absurd ht hne, fun hlen _ => by omega⟩
      · have ho := List.mem_of_mem_filter h2
        have hge := (perform_ocr_scan_mem _ _ _ _ e ho).1
        have h9000 := (ocrStartId_ge _ (buildDetected_ids raw f m)).2
        have htype := (perform_ocr_scan_mem _ _ _ _ e ho).2
        exact ⟨fun _ => by omega, fun _ hne => absurd htype hne⟩
    · rw [if_neg hrun] at he
      obtain ⟨hne, hlt⟩ := hdet he
      exact ⟨fun ht => absurd ht hne, fun hlen _ => by omega⟩

theorem snapshot_id_invariant_witness :
    9000 ≤ ocrEl0.id ∧ ocrEl0.type = "OCR_TEXT" :=
  ⟨((snapshot_id_invariant_amended.2 [rawBtn] [box0] (some 1) mon0 ocrEl0
      (by decide) (by decide)).1) (by decide), rfl⟩

/-- C2 counterexample: with 9001 retained structural elements (focus-scoped
scan, so no monitor filtering), the structural element at position 9000
has id 9000, so the claim "every structural (non-`OCR_TEXT`) element has
id < 9000" fails as stated. -/
theorem structural_id_overflow_counterexample :
    ¬ (∀ e ∈ observe_os_state raw9001 [] (some 1) mon0,
        e.type ≠ "OCR_TEXT" → e.id < 9000) := by
  intro hall
  have hvm : vmForceOCR raw9001 = false := rfl
  have hlen : (buildDetected raw9001 (some 1) mon0).length = 9001 := by
    have h := buildDetectedAux_length (some 1) (monitorRect mon0) rfl raw9001 []
    have hr : raw9001.length = 9001 := List.length_replicate 9001 rawBtn
    show (buildDetectedAux (some 1) (monitorRect mon0) raw9001 []).length = 9001
    rw [h, hr]
    rfl
  have htypes : ∀ e ∈ buildDetected raw9001 (some 1) mon0, e.type = "Button" := by
    intro e he
    rcases buildDetectedAux_mem _ _ raw9001 [] e he with h | ⟨d, hd, _, ht, _⟩
    · cases h
    · have hd2 : d = rawBtn := List.eq_of_mem_replicate hd
      rw [ht, hd2]
      rfl
  have hcount : uiaCount (buildDetected raw9001 (some 1) mon0) = 9001 := by
    unfold uiaCount
    rw [List.filter_eq_self.mpr ?_, hlen]
    intro e he
    rw [htypes e he]
    rfl
  have hrun : runOCRDecision raw9001 (some 1) mon0 = false := by
    unfold runOCRDecision
    rw [hvm, hcount]
    rfl
  have hobs : observe_os_state raw9001 [] (some 1) mon0
      = buildDetected raw9001 (some 1) mon0 := by
    rw [observe_eq, if_neg (by rw [hrun]; exact Bool.false_ne_true)]
  have hmem : (9000 : Nat) ∈ (buildDetected raw9001 (some 1) mon0).map (·.id) := by
    rw [buildDetected_ids, hlen]
    exact List.mem_range.mpr (by omega)
  rcases List.mem_map.mp hmem with ⟨e, he, hid⟩
  have htype := htypes e he
  have hlt : e.id < 9000 := by
    refine hall e ?_ ?_
    · rw [hobs]; exact he
    · rw [htype]; decide
  omega

/-- C5: during the merge step of `observe_os_state` (whenever OCR ran), an
OCR text element is omitted from the returned list if and only if the VM
heuristic did not force OCR and the center of its rectangle lies inside
some interaction-bearing blocker rectangle; when the VM heuristic forced
OCR, no text element is ever suppressed. -/
theorem ocr_merge_suppression :
    ∀ (raw : List RawElement) (boxes : List OcrBox) (f : Option Nat) (m : Monitor),
      runOCRDecision raw f m = true →
      ∀ o ∈ perform_ocr_scan boxes m.left m.top (ocrStartId (buildDetected raw f m)),
        (o ∉ observe_os_state raw boxes f m ↔
          (vmForceOCR raw = false ∧
           o.absolute_rectangle.any (centerCovered (uiaBlockers (buildDetected raw f m)))
             = true)) ∧
        (vmForceOCR raw = true → o ∈ observe_os_state raw boxes f m) := by
  intro raw boxes f m hrun o ho
  have hnotdet := ocr_not_in_detected raw boxes f m o ho
  have hmem : o ∈ observe_os_state raw boxes f m ↔
      (vmForceOCR raw ||
        !(o.absolute_rectangle.any (centerCovered (uiaBlockers (buildDetected raw f m)))))
        = true := by
    rw [observe_eq, if_pos hrun, List.mem_append]
    constructor
    · rintro (h | h)
      · exact absurd h hnotdet
      · exact (List.mem_filter.mp h).2
    · intro hp
      exact .inr (List.mem_filter.mpr ⟨ho, hp⟩)
  constructor
  · rw [show (o ∉ observe_os_state raw boxes f m) = ¬(o ∈ observe_os_state raw boxes f m)
        from rfl, hmem]
    cases hvm : vmForceOCR raw <;>
      cases hcov : o.absolute_rectangle.any
        (centerCovered (uiaBlockers (buildDetected raw f m))) <;>
      simp [hvm, hcov]
  · intro hvm
    apply hmem.mpr
    rw [hvm]
    rfl

theorem ocr_merge_suppression_witness :
    ocrEl0 ∈ observe_os_state [rawOracle] [box0] none mon0 :=
  (ocr_merge_suppression [rawOracle] [box0] none mon0 (by decide) ocrEl0 (by decide)).2
    (by decide)

/-- C4: a scan whose owning window is named "Oracle VM VirtualBox Manager"
always forces the OCR fallback regardless of the structural element count;
a "Notepad" window with 12 counted non-Window/non-Pane structural elements
never triggers it; and in general OCR runs iff the VM-title heuristic
matches or the density count is strictly below 5. -/
theorem ocr_vm_heuristic :
    (∀ (e : RawElement) (rest : List RawElement) (f : Option Nat) (m : Monitor),
      e.name = "Oracle VM VirtualBox Manager" →
      runOCRDecision (e :: rest) f m = true) ∧
    (∀ (e : RawElement) (rest : List RawElement) (f : Option Nat) (m : Monitor),
      e.name = "Notepad" →
      uiaCount (buildDetected (e :: rest) f m) = 12 →
      runOCRDecision (e :: rest) f m = false) ∧
    (∀ (raw : List RawElement) (f : Option Nat) (m : Monitor),
      runOCRDecision raw f m =
        (vmForceOCR raw || decide (uiaCount (buildDetected raw f m) < 5))) := by
  refine ⟨?_, ?_, fun _ _ _ => rfl⟩
  · intro e rest f m hname
    have hvm : vmForceOCR (e :: rest) = true := by
      show (let root_name := pyLower e.name
            if strHas root_name "oracle" || strHas root_name "virtualbox" then true
            else if strHas root_name "vm" then
              strHas root_name " vm " || strStarts root_name "vm " ||
              strEnds root_name " vm" || root_name == "vm"
            else false) = true
      rw [hname]
      decide
    unfold runOCRDecision
    rw [hvm]
    rfl
  · intro e rest f m hname hcount
    have hvm : vmForceOCR (e :: rest) = false := by
      show (let root_name := pyLower e.name
            if strHas root_name "oracle" || strHas root_name "virtualbox" then true
            else if strHas root_name "vm" then
              strHas root_name " vm " || strStarts root_name "vm " ||
              strEnds root_name " vm" || root_name == "vm"
            else false) = false
      rw [hname]
      decide
    unfold runOCRDecision
    rw [hvm, hcount]
    rfl

theorem ocr_vm_heuristic_witness :
    runOCRDecision [rawOracle] (some 7) mon0 = true ∧
    runOCRDecision rawNotepad (some 8) mon0 = false :=
  ⟨ocr_vm_heuristic.1 rawOracle [] (some 7) mon0 rfl,
   ocr_vm_heuristic.2.1 rawNotepadWin (List.replicate 12 rawBtn) (some 8) mon0 rfl
     (by decide)⟩

/-- C3 counterexample: element A (100×100 at the origin) fully contains
element B (10×10 at the origin), B covers only 1% ≤ 20% of A, yet
`_filter_nested_elements` keeps B (the filter drops the larger element
when a kept smaller one fills more than 80% of it, never the smaller),
so the claim "B is dropped" fails as stated. -/
theorem nested_filter_counterexample :
    (elA.absolute_rectangle = some ⟨0, 0, 100, 100⟩ ∧
     elB.absolute_rectangle = some ⟨0, 0, 10, 10⟩) ∧
    ((Rect.mk 0 0 100 100).left ≤ (Rect.mk 0 0 10 10).left ∧
     (Rect.mk 0 0 100 100).top ≤ (Rect.mk 0 0 10 10).top ∧
     (Rect.mk 0 0 10 10).right ≤ (Rect.mk 0 0 100 100).right ∧
     (Rect.mk 0 0 10 10).bottom ≤ (Rect.mk 0 0 100 100).bottom) ∧
    5 * get_area ⟨0, 0, 10, 10⟩ ≤ get_area ⟨0, 0, 100, 100⟩ ∧
    _filter_nested_elements [elA, elB] = [elB, elA] := by
  decide

theorem filter_nested_two (a b : UIElement) (ra rb : Rect)
    (hga : get_rect a = some ra) (hgb : get_rect b = some rb)
    (hlt : get_area rb < get_area ra) (hposb : 0 < get_area rb) :
    _filter_nested_elements [a, b]
      = if isRedundantAgainst ra (get_area ra) (b, get_area rb, rb) = true
        then [b] else [b, a] := by
  have hposa : 0 < get_area ra := lt_trans hposb hlt
  unfold _filter_nested_elements
  simp only [List.filterMap_cons, List.filterMap_nil, hga, hgb, Option.map_some]
  simp only [List.insertionSort, List.orderedInsert, not_le.mpr hlt, if_false, ite_false,
    if_neg (not_le.mpr hlt)]
  unfold filterNestedLoop
  simp only [not_le.mpr hposb, if_neg (not_le.mpr hposb), List.any_nil, Bool.false_eq_true,
    if_false, List.nil_append]
  unfold filterNestedLoop
  simp only [if_neg (not_le.mpr hposa), List.any_cons, List.any_nil, Bool.or_false]
  split
  · unfold filterNestedLoop
    rfl
  · unfold filterNestedLoop
    rfl

theorem filter_nested_two_le (a b : UIElement) (ra rb : Rect)
    (hga : get_rect a = some ra) (hgb : get_rect b = some rb)
    (hle : get_area ra ≤ get_area rb) (hposa : 0 < get_area ra) (hposb : 0 < get_area rb) :
    _filter_nested_elements [a, b]
      = if isRedundantAgainst rb (get_area rb) (a, get_area ra, ra) = true
        then [a] else [a, b] := by
  unfold _filter_nested_elements
  simp only [List.filterMap_cons, List.filterMap_nil, hga, hgb, Option.map_some]
  simp only [List.insertionSort, List.orderedInsert, if_pos hle]
  unfold filterNestedLoop
  simp only [not_le.mpr hposa, if_neg (not_le.mpr hposa), List.any_nil, Bool.false_eq_true,
    if_false, List.nil_append]
  unfold filterNestedLoop
  simp only [if_neg (not_le.mpr hposb), List.any_cons, List.any_nil, Bool.or_false]
  split
  · unfold filterNestedLoop
    rfl
  · unfold filterNestedLoop
    rfl

/-- C3 (amended): the redundancy filter keeps the contained element: for a
two-element input where A fully contains B and B's (positive) area is at
most 20% of A's, the output is `[B, A]` — B is kept, not dropped (the
filter instead drops a larger element more than 80% filled by a kept
smaller one); and two elements with positive areas are both kept whenever
neither rectangle fits inside the other's 5-pixel-expanded rectangle
(plain disjointness is not enough: a small rectangle lying wholly inside
the 5-pixel margin of a disjoint, equally-sized one can still trigger the
containment test). -/
theorem nested_filter_amended :
    (∀ (a b : UIElement) (ra rb : Rect),
      get_rect a = some ra → get_rect b = some rb →
      0 < get_area rb →
      ra.left ≤ rb.left → ra.top ≤ rb.top → rb.right ≤ ra.right → rb.bottom ≤ ra.bottom →
      5 * get_area rb ≤ get_area ra →
      _filter_nested_elements [a, b] = [b, a]) ∧
    (∀ (a b : UIElement) (ra rb : Rect),
      get_rect a = some ra → get_rect b = some rb →
      0 < get_area ra → 0 < get_area rb →
      keptWithin rb ra = false → keptWithin ra rb = false →
      a ∈ _filter_nested_elements [a, b] ∧ b ∈ _filter_nested_elements [a, b]) := by
  constructor
  · intro a b ra rb hga hgb hposb hcl hct hcr hcb hratio
    have hlt : get_area rb < get_area ra := by linarith
    have hcond : isRedundantAgainst ra (get_area ra) (b, get_area rb, rb) = false := by
      unfold isRedundantAgainst
      have hng : ¬ (5 * get_area rb > 4 * get_area ra) := by linarith
      simp [hng]
    rw [filter_nested_two a b ra rb hga hgb hlt hposb, hcond]
    simp
  · intro a b ra rb hga hgb hposa hposb hwba hwab
    rcases le_or_lt (get_area ra) (get_area rb) with hle | hlt
    · have hcond : isRedundantAgainst rb (get_area rb) (a, get_area ra, ra) = false := by
        unfold isRedundantAgainst
        rw [hwab]
        rfl
      rw [filter_nested_two_le a b ra rb hga hgb hle hposa hposb, hcond]
      simp
    · have hcond : isRedundantAgainst ra (get_area ra) (b, get_area rb, rb) = false := by
        unfold isRedundantAgainst
        rw [hwba]
        rfl
      rw [filter_nested_two a b ra rb hga hgb hlt hposb, hcond]
      simp

theorem nested_filter_witness : _filter_nested_elements [elA, elB] = [elB, elA] :=
  nested_filter_amended.1 elA elB ⟨0, 0, 100, 100⟩ ⟨0, 0, 10, 10⟩
    (by decide) (by decide) (by decide) (by decide) (by decide) (by decide) (by decide)
    (by decide)

/-- C7: for `_trigger_ipc_analysis`, a scoped request (root handle given)
that times out, or that receives an explicit "HandleInvalid" reply,
surfaces to the caller as the propagated stale-handle error; an unscoped
full-desktop request that times out or hits a transport error returns the
empty result for that cycle and is never surfaced as the stale
condition. -/
theorem analyze_stale_propagation :
    (∀ h : Nat, h ≠ 0 → _trigger_ipc_analysis (some h) .timeout = .error "HandleInvalid") ∧
    (∀ (h : Nat) (status msg : String) (data : List RawElement),
      status ≠ "success" → msg = "HandleInvalid" →
      _trigger_ipc_analysis (some h) (.reply status msg data) = .error "HandleInvalid") ∧
    (_trigger_ipc_analysis none .timeout = .ok [] ∧
     _trigger_ipc_analysis none .transportError = .ok []) := by
  refine ⟨?_, ?_, rfl, rfl⟩
  · intro h hne
    unfold _trigger_ipc_analysis
    rw [if_pos]
    simp [truthyHandle, hne]
  · intro h status msg data hs hm
    subst hm
    have h1 : (status == "success") = false := beq_eq_false_iff_ne.mpr hs
    unfold _trigger_ipc_analysis
    simp [h1]

theorem analyze_stale_propagation_witness :
    _trigger_ipc_analysis (some 42) .timeout = .error "HandleInvalid" ∧
    _trigger_ipc_analysis (some 42) (.reply "error" "HandleInvalid" [])
      = .error "HandleInvalid" :=
  ⟨analyze_stale_propagation.1 42 (by decide),
   analyze_stale_propagation.2.1 42 "error" "HandleInvalid" [] (by decide) rfl⟩

/-- C10: the handle liveness probe is total — it returns `true` only for a
reply whose `exists` key is `true`, and `false` on a timeout, transport
error, malformed reply or missing key — so `_capture_state` demotes focus
(clears the active app and its known-windows entry) whenever the probe
fails, instead of crashing. -/
theorem handle_probe_total :
    (∀ o : ProbeOutcome, check_ipc_handle_exists o = true ↔ o = .reply (some true)) ∧
    (∀ (active : Option String) (known : List (String × Nat)) (probe : Nat → ProbeOutcome)
       (a : String) (h : Nat),
      active = some a → a ≠ "" → dictGet known a = some h →
      check_ipc_handle_exists (probe h) = false →
      captureResolveTarget active known probe = (none, none, dictDelete known a)) := by
  constructor
  · rintro (e | _ | _ | _)
    · rcases e with _ | b
      · simp [check_ipc_handle_exists]
      · rcases b with _ | _ <;> simp [check_ipc_handle_exists]
    all_goals simp [check_ipc_handle_exists]
  · intro active known probe a h hact hne hget hdead
    subst hact
    unfold captureResolveTarget
    rw [if_pos (by simp [truthyStr, hne])]
    simp only [Option.getD_some, hget, hdead, Bool.false_eq_true, if_false]

theorem handle_probe_total_witness :
    check_ipc_handle_exists .timeout = false ∧
    captureResolveTarget (some "calc") [("calc", 9)] probeDead
      = (none, none, dictDelete [("calc", 9)] "calc") := by
  constructor
  · cases hc : check_ipc_handle_exists .timeout
    · rfl
    · exact absurd ((handle_probe_total.1 .timeout).mp hc) (by decide)
  · exact handle_probe_total.2 (some "calc") [("calc", 9)] probeDead "calc" 9 rfl
      (by decide) (by decide) (by decide)

theorem launchDetect_none (a : String) (hb : List Nat) :
    ∀ polls : List (List WindowRec),
      (∀ p ∈ polls, scanPoll a hb p = none) → launchDetect a hb polls = none := by
  intro polls
  induction polls with
  | nil => intro _; rfl
  | cons p ps ih =>
    intro hall
    unfold launchDetect
    rw [hall p (List.mem_cons_self p ps)]
    exact ih (fun q hq => hall q (List.mem_cons_of_mem p hq))

/-- C8: a `launch_app` dispatch (with the process spawned) always reports
status success: when a poll yields a new window larger than 50×50 it
carries that window's handle (concretely, handle 12 of size 200×300 titled
"calculator" against prior handles {10,11}); when no poll yields a
qualifying new handle, the result is still success with no handle —
failure is never reported purely because window detection timed out. -/
theorem launch_app_success_semantics :
    (∀ (name : String) (elems : List UIElement) (env : ExecEnv),
      pyStrip (pyLower name) ≠ "" → env.launch_ok = true →
      ∃ (r : ActionResult) (effs : List OSEffect),
        execute_os_action ⟨"launch_app", none, "", name, "", none, "", 3⟩ elems env
          = .ok (some r, effs) ∧ r.status = "success") ∧
    (execute_os_action actLaunchCalc [] envLaunch
      = .ok (some ⟨"success", none, none, some 12, some "launched", some "calculator"⟩,
             [.spawn "calc.exe", .foreground 12])) ∧
    (∀ (name : String) (elems : List UIElement) (env : ExecEnv),
      pyStrip (pyLower name) ≠ "" → env.launch_ok = true →
      (∀ p ∈ env.polls,
        scanPoll (pyStrip (pyLower name)) (env.windows_before.map (·.handle)) p = none) →
      execute_os_action ⟨"launch_app", none, "", name, "", none, "", 3⟩ elems env
        = .ok (some ⟨"success", some "Command executed, but window detection timed out.",
                      none, none, none, none⟩,
               [.spawn (launchFinalCmd
                  (resolveLaunchCmd (pyStrip (pyLower name)) env.app_map))])) := by
  refine ⟨?_, rfl, ?_⟩
  · intro name elems env hname hok
    have hbne : (pyStrip (pyLower name) == "") = false := beq_eq_false_iff_ne.mpr hname
    cases hdet : launchDetect (pyStrip (pyLower name)) (env.windows_before.map (·.handle))
        env.polls with
    | some w =>
      refine ⟨⟨"success", none, none, some w.handle, some "launched", some w.title⟩,
              [.spawn (launchFinalCmd (resolveLaunchCmd (pyStrip (pyLower name)) env.app_map)),
               .foreground w.handle], ?_, rfl⟩
      simp [execute_os_action, hbne, hok, launchResult, hdet]
    | none =>
      refine ⟨⟨"success", some "Command executed, but window detection timed out.",
               none, none, none, none⟩,
              [.spawn (launchFinalCmd (resolveLaunchCmd (pyStrip (pyLower name)) env.app_map))],
              ?_, rfl⟩
      simp [execute_os_action, hbne, hok, launchResult, hdet]
  · intro name elems env hname hok hnone
    have hdet : launchDetect (pyStrip (pyLower name)) (env.windows_before.map (·.handle))
        env.polls = none := launchDetect_none _ _ env.polls hnone
    have hbne : (pyStrip (pyLower name) == "") = false := beq_eq_false_iff_ne.mpr hname
    simp [execute_os_action, hbne, hok, launchResult, hdet]

theorem launch_app_success_witness :
    execute_os_action ⟨"launch_app", none, "", "calculator", "", none, "", 3⟩ [] env0
      = .ok (some ⟨"success", some "Command executed, but window detection timed out.",
                    none, none, none, none⟩,
             [.spawn (launchFinalCmd
                (resolveLaunchCmd (pyStrip (pyLower "calculator")) env0.app_map))]) :=
  launch_app_success_semantics.2.2 "calculator" [] env0 (by decide) rfl
    (fun p hp => absurd hp (List.not_mem_nil p))

/-- C9 counterexample: a click on an element id absent from the element
list makes `execute_os_action` return without any result value (`None`),
not an `ActionResult` with status Error, so the claim fails as stated. -/
theorem dispatch_resolution_counterexample :
    execute_os_action actClick5 [] env0 = .ok (none, []) ∧
    ¬ ∃ (r : ActionResult) (effs : List OSEffect),
        execute_os_action actClick5 [] env0 = .ok (some r, effs) ∧ r.status = "error" := by
  have h1 : execute_os_action actClick5 [] env0 = .ok (none, []) := rfl
  refine ⟨h1, ?_⟩
  rintro ⟨r, effs, heq, _⟩
  rw [h1] at heq
  simp at heq

/-- C9 (amended): an unresolvable click/double_click/right_click target
makes `execute_os_action` return without a result (`None`, no effects); an
unresolvable `type` target falls back to blind typing and returns `None`;
an unresolvable `launch_app` name is launched as a literal command and
reports status success (with the new handle or a timeout message), never
Error; and the only uncaught exception is the `ValueError` for a blank
`launch_app` name. -/
theorem dispatch_resolution_amended :
    (∀ (cmd : String) (eid : Nat) (elems : List UIElement) (env : ExecEnv),
      cmd = "click" ∨ cmd = "double_click" ∨ cmd = "right_click" →
      (∀ el ∈ elems, el.id ≠ eid) →
      execute_os_action ⟨cmd, some eid, "", "", "", none, "", 3⟩ elems env = .ok (none, [])) ∧
    (∀ (eid : Nat) (text : String) (elems : List UIElement) (env : ExecEnv),
      (∀ el ∈ elems, el.id ≠ eid) →
      execute_os_action ⟨"type", some eid, text, "", "", none, "", 3⟩ elems env
        = .ok (none, [.pyWrite text])) ∧
    (∀ (name : String) (elems : List UIElement) (env : ExecEnv),
      pyStrip (pyLower name) ≠ "" → env.launch_ok = true →
      ∃ (r : ActionResult) (effs : List OSEffect),
        execute_os_action ⟨"launch_app", none, "", name, "", none, "", 3⟩ elems env
          = .ok (some r, effs) ∧ r.status = "success" ∧ r.status ≠ "error") ∧
    (∀ (a : OSAction) (elems : List UIElement) (env : ExecEnv) (e : String),
      execute_os_action a elems env = .error e →
      a.command = "launch_app" ∧ pyStrip (pyLower a.app_name) = "") := by
  have hfind : ∀ (elems : List UIElement) (eid : Nat), (∀ el ∈ elems, el.id ≠ eid) →
      elems.find? (fun el => el.id == eid) = none := by
    intro elems eid hall
    exact List.find?_eq_none.mpr (fun el hel => by simp [hall el hel])
  refine ⟨?_, ?_, ?_, ?_⟩
  · rintro cmd eid elems env (rfl | rfl | rfl) hall <;>
      simp [execute_os_action, clickBranch, hfind elems eid hall]
  · intro eid text elems env hall
    simp [execute_os_action, typeBranch, hfind elems eid hall]
  · intro name elems env hname hok
    have hbne : (pyStrip (pyLower name) == "") = false := beq_eq_false_iff_ne.mpr hname
    cases hdet : launchDetect (pyStrip (pyLower name)) (env.windows_before.map (·.handle))
        env.polls with
    | some w =>
      refine ⟨⟨"success", none, none, some w.handle, some "launched", some w.title⟩,
              [.spawn (launchFinalCmd (resolveLaunchCmd (pyStrip (pyLower name)) env.app_map)),
               .foreground w.handle], ?_, rfl, by simp⟩
      simp [execute_os_action, hbne, hok, launchResult, hdet]
    | none =>
      refine ⟨⟨"success", some "Command executed, but window detection timed out.",
               none, none, none, none⟩,
              [.spawn (launchFinalCmd (resolveLaunchCmd (pyStrip (pyLower name)) env.app_map))],
              ?_, rfl, by simp⟩
      simp [execute_os_action, hbne, hok, launchResult, hdet]
  · intro a elems env e h
    unfold execute_os_action at h
    repeat' split at h
    all_goals try simp_all
    all_goals (split at h <;> simp_all)

theorem dispatch_resolution_witness :
    execute_os_action ⟨"click", some 5, "", "", "", none, "", 3⟩ [] env0 = .ok (none, []) ∧
    execute_os_action ⟨"type", some 7, "hi", "", "", none, "", 3⟩ [] env0
      = .ok (none, [.pyWrite "hi"]) :=
  ⟨dispatch_resolution_amended.1 "click" 5 [] env0 (.inl rfl)
     (fun el hel => absurd hel (List.not_mem_nil el)),
   dispatch_resolution_amended.2.1 7 "hi" [] env0
     (fun el hel => absurd hel (List.not_mem_nil el))⟩
